import Mathlib

/-!
Shallow embedding of the table-structure recovery pipeline of the
`document_inteligence` repository: the structure detector, collapsed-table
repairer and column reorderer of `extract_final_table.py`, the header
classifier `is_likely_data` of `batch_ocr_processor.py`, and the
column-removal stages of `column_normalizer.py`.

String primitives mirror the Python string methods used by the code.
`pyLower` maps ASCII letters only; every string the claims evaluate is
ASCII, Hebrew or cp1252-mojibake, on which Python's `str.lower` agrees.
`pyStrip` / `pyIsSpaceChar` use the ASCII whitespace set, which agrees with
Python's `str.strip` / `\s` on all inputs considered here.

Note on the source encoding: the Hebrew string literals inside
`extract_final_table.py` are mojibake — the file holds the cp1252
mis-decoding (undefined bytes dropped) of the UTF-8 encoding of the intended
Hebrew keywords.  The constants `mojTZ`, `mojShemPrati`, … below reproduce
those literals character for character (checked against the file's bytes),
because that is what the program actually compares against.
-/

/-- Python `c.isdigit()` for a single ASCII character (the `\d` class of
`re` for the inputs considered). -/
def pyIsDigitChar (c : Char) : Bool := '0' ≤ c && c ≤ '9'

/-- Python whitespace (`\s`, `str.strip`, `str.isspace`), ASCII part. -/
def pyIsSpaceChar (c : Char) : Bool :=
  c = ' ' || c = '\t' || c = '\n' || c = '\r' || c = '\x0b' || c = '\x0c'

/-- Python `str.lower()` (ASCII letters; identity on Hebrew and on the
mojibake characters, as in Python). -/
def pyLower (s : String) : String := ⟨s.data.map Char.toLower⟩

/-- Python `s.startswith(pre)`. -/
def pyStartsWith (s pre : String) : Bool := pre.data.isPrefixOf s.data

/-- Python `content.split('\n')` on a character list: split at every
newline, keeping empty pieces. -/
def splitNlL : List Char → List (List Char)
  | [] => [[]]
  | c :: t =>
    if c = '\n' then [] :: splitNlL t
    else
      match splitNlL t with
      | h :: r => (c :: h) :: r
      | [] => [[c]]

/-- Python `content.split('\n')` for strings. -/
def splitNl (s : String) : List String := (splitNlL s.data).map (fun l => ⟨l⟩)

/-- Python `str.strip()`: drop leading and trailing whitespace. -/
def pyStrip (s : String) : String :=
  ⟨((s.data.dropWhile pyIsSpaceChar).reverse.dropWhile pyIsSpaceChar).reverse⟩

/-- Python `needle in haystack` on lists of characters: some contiguous
slice of the haystack equals the needle. -/
def pyInL (needle : List Char) : List Char → Bool
  | [] => needle.isEmpty
  | c :: t => needle.isPrefixOf (c :: t) || pyInL needle t

/-- Python `needle in haystack` for strings. -/
def pyIn (needle hay : String) : Bool := pyInL needle.data hay.data

/-- Python `s.isdigit()`: non-empty and all digits. -/
def pyIsdigit (s : String) : Bool := !s.data.isEmpty && s.data.all pyIsDigitChar

/-- Python `s.isspace()`: non-empty and all whitespace. -/
def pyIsSpaceStr (s : String) : Bool := !s.data.isEmpty && s.data.all pyIsSpaceChar

/-- Hebrew code-point range `[֐-׿]` used by the source's regexes. -/
def isHebrewChar (c : Char) : Bool := '֐' ≤ c && c ≤ '׿'

/-- Helper for counting maximal Hebrew runs: the flag records whether the
previous character was Hebrew (i.e. a run is already open). -/
def hebrewRunCountAux : Bool → List Char → Nat
  | _, [] => 0
  | inRun, c :: t =>
    if isHebrewChar c then (if inRun then 0 else 1) + hebrewRunCountAux true t
    else hebrewRunCountAux false t

/-- Count of maximal runs matched by `re.findall(r'[֐-׿]+', s)`. -/
def hebrewRunCount (l : List Char) : Nat := hebrewRunCountAux false l

/-- A generic matcher for the source's two-separator date regexes
`\d{a1,a2} SEP \d{b1,b2} SEP \d{c1,c2...}` as prefix matches: the digit and
separator classes are disjoint, so greedy matching without backtracking is
exact.  Each group is the maximal digit run at its position; the final group
only needs its minimum, as the pattern ends there (prefix semantics). -/
def matchSepDate (sep : Char) (lo1 hi1 lo2 hi2 lo3 : Nat) (s : String) : Bool :=
  let p := s.data.span pyIsDigitChar
  decide (lo1 ≤ p.1.length) && decide (p.1.length ≤ hi1) &&
    !p.2.isEmpty && decide (p.2.headD ' ' = sep) &&
    (let q := (p.2.drop 1).span pyIsDigitChar
     decide (lo2 ≤ q.1.length) && decide (q.1.length ≤ hi2) &&
       !q.2.isEmpty && decide (q.2.headD ' ' = sep) &&
       decide (lo3 ≤ ((q.2.drop 1).takeWhile pyIsDigitChar).length))

/-- Matcher for `re.match(r'\d{1,2}/\d{1,2}/\d{2,4}', s)` (prefix match). -/
def matchSlashDate (s : String) : Bool := matchSepDate '/' 1 2 1 2 2 s

/-- Matcher for `re.match(r'\d{4}-\d{2}-\d{2}', s)` (prefix match). -/
def matchDashDate (s : String) : Bool := matchSepDate '-' 4 4 2 2 2 s

/-- Matcher for `re.match(r'\d{1,2}\.\d{1,2}\.\d{2,4}', s)` (prefix match). -/
def matchDotDate (s : String) : Bool := matchSepDate '.' 1 2 1 2 2 s

/-- Matcher for `re.match(r'^\d{3}-\d{3}-\d{4}$', s)` (anchored: the last
group must take the whole remainder). -/
def matchPhone (s : String) : Bool :=
  let p := s.data.span pyIsDigitChar
  decide (p.1.length = 3) &&
    !p.2.isEmpty && decide (p.2.headD ' ' = '-') &&
    (let q := (p.2.drop 1).span pyIsDigitChar
     decide (q.1.length = 3) &&
       !q.2.isEmpty && decide (q.2.headD ' ' = '-') &&
       (q.2.drop 1).all pyIsDigitChar && decide ((q.2.drop 1).length = 4))

/-- Matcher for `re.match(r'^\d{7,10}$', s)` (anchored). -/
def matchID7to10 (s : String) : Bool :=
  s.data.all pyIsDigitChar && decide (7 ≤ s.length) && decide (s.length ≤ 10)

/-- Matcher for `re.match(r'^\d{2,3}\s*\d{5,6}$', s)` (anchored).  When the
string is all digits the two digit groups must split it into 2–3 plus 5–6
digits, i.e. total length 7–9; otherwise the leading digit run is the first
group, followed by a non-empty whitespace run and a trailing 5–6 digit run. -/
def matchSpacedID (s : String) : Bool :=
  let p := s.data.span pyIsDigitChar
  if p.2.isEmpty then decide (7 ≤ p.1.length) && decide (p.1.length ≤ 9)
  else
    decide (2 ≤ p.1.length) && decide (p.1.length ≤ 3) &&
      (let q := p.2.span pyIsSpaceChar
       !q.1.isEmpty && q.2.all pyIsDigitChar &&
         decide (5 ≤ q.2.length) && decide (q.2.length ≤ 6))

/-!
Embedding of `extract_final_table.py`.

The mojibake constants below reproduce the file's corrupted Hebrew string
literals exactly (code points listed in the source file's bytes): e.g. the
keyword intended as the Hebrew ID abbreviation appears in the file as the
four characters U+00D7 U+00AA U+00D7 U+2013.
-/

/-- Source literal on line 680 (intended Hebrew "tz" ID keyword). -/
def mojTZ : String := "×ª×–"

/-- Source literal for the dotted ID abbreviation. -/
def mojTazDot : String := "×ª.×–"

/-- Source literal for the gershayim ID abbreviation. -/
def mojTGershZ : String := "×ª×´×–"

/-- Source literal intended as the Hebrew "first name" keyword. -/
def mojShemPrati : String :=
  "×©× ×¤×¨×˜×™"

/-- Source literal intended as the Hebrew "last name" keyword. -/
def mojShemMishpacha : String :=
  "×©× ××©×¤×—×”"

/-- Source literal intended as the Hebrew "number" keyword. -/
def mojMispar : String := "××¡×¤×¨"

/-- Source literal intended as the Hebrew "employee" keyword. -/
def mojOved : String := "×¢×•×‘×“"

/-- Source literal intended as the Hebrew "signature" keyword. -/
def mojChatima : String := "×—×ª×™××”"

/-- Source literal intended as the Hebrew "name" keyword. -/
def mojShem : String := "×©×"

/-- Source literal intended as the Hebrew "identity" keyword. -/
def mojZehut : String := "×–×”×•×ª"

/-- Source literal intended as the Hebrew "role/position" keyword. -/
def mojTafkid : String := "×ª×¤×§×™×“"

/-- Source literal intended as the Hebrew "family" keyword. -/
def mojMishpacha : String := "××©×¤×—×”"

/-- Source literal intended as the Hebrew "residence" keyword. -/
def mojMegurim : String := "××’×•×¨×™×"

/-- Lower-cased spreadsheet column letters, `[col.lower() for col in A..Z]`. -/
def singleLetters : List String :=
  (List.range 26).map (fun i => ⟨[Char.ofNat ('a'.toNat + i)]⟩)

/-- The `excel_ui_indicators` list of `is_excel_ui_row`. -/
def excelUiIndicators : List String :=
  ["formula bar", "selected", ":selected:", "unselected", ":unselected:",
   "column_", "row_", "cell_", "sheet", "workbook"]

/-- Embedding of `is_excel_ui_row(row)`. -/
def is_excel_ui_row (row : List String) : Bool :=
  if row.isEmpty then false
  else row.any (fun cell =>
    let cs := pyStrip (pyLower cell)
    excelUiIndicators.any (fun ind => pyIn ind cs) ||
      singleLetters.any (fun l => l = cs) ||
      pyIn ":selected:" cs || pyIn ":unselected:" cs)

/-- The `header_indicators` list of `is_header_row` (Hebrew entries are the
file's mojibake literals). -/
def headerIndicators : List String :=
  ["id", mojTZ, mojTazDot, mojMispar, "first", "last", mojShemPrati,
   mojShemMishpacha, "name", "employee", mojOved, mojChatima, "signature"]

/-- The counting loop of `is_header_row`: `none` models the early
`return False` taken on a long all-digit cell. -/
def countValidHeaders : List String → Option Nat
  | [] => some 0
  | cell :: rest =>
    let cs := pyStrip (pyLower cell)
    if headerIndicators.any (fun ind => pyIn ind cs) then
      (countValidHeaders rest).map (· + 1)
    else if cs ≠ "" && decide (8 < cs.length) && pyIsdigit cs then none
    else countValidHeaders rest

/-- Embedding of `is_header_row(row)`. -/
def is_header_row (row : List String) : Bool :=
  if row.isEmpty then false
  else if is_excel_ui_row row then false
  else
    match countValidHeaders row with
    | none => false
    | some v => decide (max 1 (row.length / 2) ≤ v)

/-- Embedding of `is_likely_id(value)`. -/
def is_likely_id (value : String) : Bool :=
  if value = "" then false
  else
    let v := pyStrip value
    if matchSpacedID v then true
    else if pyIsdigit v && decide (v.length = 9) then true
    else if pyIsdigit v && decide (8 ≤ v.length) && decide (v.length ≤ 10) then true
    else
      let w : String := ⟨v.data.filter (fun c => c ≠ '-' && c ≠ '/' && c ≠ ' ')⟩
      pyIsdigit w && decide (6 ≤ w.length)

/-- Character class `[֐-׿a-zA-Z\s]` of the embedded-ID search pattern. -/
def isNameChar (c : Char) : Bool :=
  isHebrewChar c || ('a' ≤ c && c ≤ 'z') || ('A' ≤ c && c ≤ 'Z') || pyIsSpaceChar c

/-- Scanner for `re.search(r'[֐-׿a-zA-Z\s]+\d{8,}', s)`: the classes are
disjoint, so a match exists exactly when some name-class character is
immediately followed by at least eight digits. -/
def hasDigitRun8After : List Char → Bool
  | [] => false
  | c :: rest =>
    (isNameChar c && decide (8 ≤ (rest.takeWhile pyIsDigitChar).length)) ||
      hasDigitRun8After rest

/-- Embedding of `contains_embedded_id(text)`. -/
def contains_embedded_id (text : String) : Bool :=
  if text = "" then false else hasDigitRun8After (pyStrip text).data

/-- The `header_words` list of `has_header_like_content` inside
`detect_table_structure` (Hebrew entries are the file's mojibake literals). -/
def headerWords : List String :=
  ["id", "name", mojShem, mojTazDot, mojTZ, mojTGershZ, mojMispar, mojZehut,
   "first", "last", mojTafkid, "position", mojMishpacha, mojMegurim]

/-- Embedding of the nested `has_header_like_content(row)`. -/
def has_header_like_content (row : List String) : Bool :=
  row.any (fun v =>
    v ≠ "" && headerWords.any (fun w => pyIn w (pyLower (pyStrip v))))

/-- Matcher for the title pattern `[֘-…][gershayim]\d+` (prefix match):
a Hebrew tet, a geresh or gershayim, then at least one digit. -/
def matchHebAbbrev (s : String) : Bool :=
  match s.data with
  | a :: b :: c :: _ =>
    a = 'ט' && (b = '״' || b = '׳') && pyIsDigitChar c
  | _ => false

/-- Word-class characters for the title pattern `\w+\s+\w+\s+\w+`
(ASCII alphanumerics, underscore and Hebrew; Python's unicode `\w` agrees on
every input considered here). -/
def isWordChar (c : Char) : Bool := c.isAlphanum || c = '_' || isHebrewChar c

/-- Matcher for `re.match(r'\w+\s+\w+\s+\w+', s)` (prefix match; the word and
space classes are disjoint, so greedy matching is exact). -/
def matchThreeWords (s : String) : Bool :=
  let p1 := s.data.span isWordChar
  let p2 := p1.2.span pyIsSpaceChar
  let p3 := p2.2.span isWordChar
  let p4 := p3.2.span pyIsSpaceChar
  !p1.1.isEmpty && !p2.1.isEmpty && !p3.1.isEmpty && !p4.1.isEmpty &&
    !(p4.2.takeWhile isWordChar).isEmpty

/-- Embedding of the nested `is_title_or_metadata_row(row, max_cols)`. -/
def is_title_or_metadata_row (row : List String) (maxCols : Nat) : Bool :=
  if row.isEmpty then false
  else
    let nonEmpty := (row.filter (fun v => v ≠ "" && pyStrip v ≠ "")).length
    if nonEmpty ≤ 1 && decide (row.length < maxCols) then true
    else
      row.any (fun v =>
        v ≠ "" && pyStrip v ≠ "" &&
          (matchHebAbbrev (pyStrip v) || matchThreeWords (pyStrip v) ||
           matchDotDate (pyStrip v)))

/-- Distinct values of a list in first-encounter order (the key order of a
Python `Counter`). -/
def distinctFE (ls : List Nat) : List Nat :=
  ls.foldl (fun acc x => if acc.any (fun y => y = x) then acc else acc ++ [x]) []

/-- `Counter(ls).most_common(1)[0][0]`: the first-encountered value with the
maximal count (ties keep the earlier value, as `most_common` is stable). -/
def mostCommonLen (ls : List Nat) : Nat :=
  match distinctFE ls with
  | [] => 0
  | d :: ds => ds.foldl (fun best v => if ls.count best < ls.count v then v else best) d

/-- Pad a row with empty strings up to `n` columns (the `while` loop of the
mismatch-rebuild branch). -/
def padTo (row : List String) (n : Nat) : List String :=
  row ++ List.replicate (n - row.length) ""

/-- Per-column counts `(id_count, text_count, empty_count)` over the first
six data rows, as in the mismatch-rebuild branch of `detect_table_structure`. -/
def colTypeCounts (allData : List (List String)) (colIdx : Nat) : Nat × Nat × Nat :=
  (allData.take 6).foldl
    (fun acc row =>
      if decide (colIdx < row.length) then
        let cell := row.getD colIdx ""
        if cell = "" || pyStrip cell = "" then (acc.1, acc.2.1, acc.2.2 + 1)
        else if is_likely_id cell then (acc.1 + 1, acc.2.1, acc.2.2)
        else if pyStrip cell ≠ "" && !pyIsdigit cell then (acc.1, acc.2.1 + 1, acc.2.2)
        else acc
      else acc)
    (0, 0, 0)

/-- Header reconstruction of the mismatch-rebuild branch: one label per
column from its data pattern, consulting the headers built so far for the
`'First Name' in corrected_headers` test. -/
def buildCorrectedHeaders (allData : List (List String)) (dataCols : Nat) : List String :=
  (List.range dataCols).foldl
    (fun hdrs colIdx =>
      let c := colTypeCounts allData colIdx
      hdrs ++
        [if 3 ≤ c.1 then "ID"
         else if 3 ≤ c.2.2 then ""
         else if 3 ≤ c.2.1 then
           (if colIdx = 0 then "First Name"
            else if hdrs.any (fun h => h = "First Name") then "Last Name"
            else "Name")
         else "Column_" ++ toString (colIdx + 1)])
    []

/-- The synthetic-header fallback of the title/metadata branch. -/
def synthHeaderFor (colIdx : Nat) : String :=
  if colIdx = 0 then "Row Number"
  else if colIdx = 1 then "Last Name"
  else if colIdx = 2 then "First Name"
  else if colIdx = 3 then "Address"
  else if colIdx = 4 then "ID"
  else "Column_" ++ toString (colIdx + 1)

/-- The header search `for i in range(1, min(5, len(rows)))` of the
title/metadata branch: first later row with enough columns, header-like
content and no ID-like values. -/
def findRealHeader (rows : List (List String)) (mcl : Nat) : Option Nat :=
  (List.range' 1 (min 5 rows.length - 1)).find? (fun i =>
    let cand := rows.getD i []
    decide (mcl ≤ cand.length) && has_header_like_content cand &&
      !cand.any is_likely_id)

/-- The header scan `for i in range(min(5, len(rows)))` with its two break
conditions; rows listed in `ui` are skipped; defaults to row 0. -/
def findBestHeader (rows : List (List String)) (ui : List Nat) : Nat :=
  match (List.range (min 5 rows.length)).find? (fun i =>
    !ui.any (fun j => j = i) &&
      (is_header_row (rows.getD i []) ||
        (let r := rows.getD i []
         decide (r.length / 2 ≤
           r.countP (fun cell => pyStrip cell ≠ "" && !pyIsdigit cell))))) with
  | some i => i
  | none => 0

/-- Embedding of `detect_table_structure(rows)`.  The Python function
returns `(header_row_index, headers)` and may rebuild `rows` in place in the
column-mismatch branch; the third component is the row list after that
possible rebuild. -/
def detect_table_structure (rows : List (List String)) :
    Int × List String × List (List String) :=
  if rows.length < 2 then (0, [], rows)
  else
    let headerCols := (rows.getD 0 []).length
    let dataCols := if 1 < rows.length then (rows.getD 1 []).length else headerCols
    if headerCols ≠ dataCols ∧ 2 < rows.length ∧ headerCols < dataCols then
      let firstRowEmb := (rows.getD 0 []).any contains_embedded_id
      let allData :=
        if firstRowEmb then padTo (rows.getD 0 []) dataCols :: rows.drop 1
        else rows.drop 1
      let corrected := buildCorrectedHeaders allData dataCols
      (0, corrected, corrected :: allData)
    else
      let firstRow := rows.getD 0 []
      let firstRowHasIds := firstRow.any is_likely_id
      let mcl :=
        if 3 < rows.length then mostCommonLen ((rows.drop 1).map List.length)
        else if 1 < rows.length then (rows.getD 1 []).length
        else firstRow.length
      let firstRowEmb := firstRow.any contains_embedded_id
      let firstRowHdr := has_header_like_content firstRow
      let firstRowTitle := is_title_or_metadata_row firstRow mcl
      let firstRowCols := firstRow.length
      if firstRowTitle || (decide (firstRowCols < mcl) && !firstRowHdr) then
        match findRealHeader rows mcl with
        | some i => ((i : Int), rows.getD i [], rows)
        | none => (0, (List.range mcl).map synthHeaderFor, rows)
      else if decide (firstRowCols < mcl) && firstRowEmb then (-1, firstRow, rows)
      else if (firstRowHasIds || firstRowEmb) && !firstRowHdr then (-1, firstRow, rows)
      else
        let uiRows :=
          (List.range (min 3 rows.length)).filter (fun i =>
            is_excel_ui_row (rows.getD i []))
        let best := findBestHeader rows uiRows
        if firstRow.length ≠ 0 then
          let firstColIds :=
            ((rows.drop 1).take 5).countP (fun r =>
              !r.isEmpty && is_likely_id (r.getD 0 ""))
          if min 3 (rows.length - 1) ≤ firstColIds then
            ((best : Int), rows.getD best [], rows)
          else if 0 < firstRow.countP is_likely_id then (-1, firstRow, rows)
          else ((best : Int), rows.getD best [], rows)
        else ((best : Int), rows.getD best [], rows)

/-!
Embedding of the column-reorder step of `extract_final_table` (lines
678–709): role detection over the headers, construction of the new column
order, and projection of every row onto it.
-/

/-- The three column roles recognised by the reorder step. -/
inductive Role
  | roleId
  | roleFname
  | roleLname
deriving DecidableEq

/-- The `if/elif` keyword test applied to one header (`h = header.lower()
.strip()`); the Hebrew keywords are the file's mojibake literals. -/
def roleOf (header : String) : Option Role :=
  let h := pyStrip (pyLower header)
  if pyIn mojTZ h || pyIn "id" h then some .roleId
  else if pyIn mojShemPrati h || pyIn "first" h then some .roleFname
  else if pyIn mojShemMishpacha h || pyIn "last" h || pyIn "surname" h then
    some .roleLname
  else none

/-- Accumulator of the role-detection loop: the current `id_col`,
`fname_col`, `lname_col` variables. -/
structure RoleAcc where
  id_col : Option Nat
  fname_col : Option Nat
  lname_col : Option Nat
deriving DecidableEq

/-- One iteration of `for i, header in enumerate(headers)`: each match
overwrites the variable, so a later match replaces an earlier one. -/
def roleStep (acc : RoleAcc) (p : Nat × String) : RoleAcc :=
  match roleOf p.2 with
  | some .roleId => { acc with id_col := some p.1 }
  | some .roleFname => { acc with fname_col := some p.1 }
  | some .roleLname => { acc with lname_col := some p.1 }
  | none => acc

/-- The role-detection loop over the enumerated headers. -/
def roleCols (headers : List String) : RoleAcc :=
  headers.enum.foldl roleStep ⟨none, none, none⟩

/-- Field selector for `RoleAcc` by role. -/
def getRole (acc : RoleAcc) : Role → Option Nat
  | .roleId => acc.id_col
  | .roleFname => acc.fname_col
  | .roleLname => acc.lname_col

/-- The first part of `new_order`: `[id_col, fname_col, lname_col]`, each
appended only when found. -/
def baseOrder (headers : List String) : List Nat :=
  let acc := roleCols headers
  acc.id_col.toList ++ acc.fname_col.toList ++ acc.lname_col.toList

/-- The full `new_order`: the role columns followed by every remaining index
in original order (`for i in range(len(headers)): if i not in new_order`). -/
def newOrder (headers : List String) : List Nat :=
  let base := baseOrder headers
  base ++ (List.range headers.length).filter (fun i => decide (i ∉ base))

/-- Row projection `[row[i] if i < len(row) else '' for i in new_order]`:
`List.getD i ""` is exactly the guarded access with `''` default. -/
def projectRow (order : List Nat) (row : List String) : List String :=
  order.map (fun i => row.getD i "")

/-- The reorder step as a table transformer: reordered headers
(`[headers[i] for i in new_order]`) and every row projected onto the new
order. -/
def reorderTable (headers : List String) (rows : List (List String)) :
    List String × List (List String) :=
  let order := newOrder headers
  (order.map (fun i => headers.getD i ""), rows.map (projectRow order))

/-!
Embedding of the collapsed-table detection and repair
(`detect_collapsed_table_structure`, `repair_collapsed_table_structure`)
and of the caller's acceptance logic in `extract_final_table`.
-/

/-- The table dictionaries passed around by `extract_final_table.py`:
`row_count`, `column_count` and the row grid (metadata omitted). -/
structure PyTable where
  row_count : Nat
  column_count : Nat
  rows : List (List String)
deriving DecidableEq

/-- Embedding of `detect_collapsed_table_structure(table)`. -/
def detect_collapsed_table_structure (t : PyTable) : Bool :=
  match t.rows with
  | [] => false
  | r0 :: _ =>
    if r0.length ≤ 2 then
      let firstCell := r0.headD ""
      if pyIn "\n" firstCell then
        decide (5 ≤ ((splitNl firstCell).filter
          (fun l => matchID7to10 (pyStrip l))).length)
      else false
    else false

/-- The repair keyword list (Hebrew entries are the file's mojibake
literals). -/
def repairKw : List String :=
  [mojTazDot, "id", mojShemPrati, mojShemMishpacha, "first", "last"]

/-- Keyword test `any(keyword in line.lower() for keyword in ...)`. -/
def hasRepairKw (line : String) : Bool :=
  repairKw.any (fun kw => pyIn kw (pyLower line))

/-- Line splitting of a collapsed cell:
`[line.strip() for line in content.split('\n') if line.strip()]`. -/
def rowLines (content : String) : List String :=
  ((splitNl content).map pyStrip).filter (fun l => l ≠ "")

/-- The header-cluster collection loop
(`for i in range(header_start, min(header_start + 5, len(lines)))`), carried
out on the lines from `header_start` with the remaining iteration budget;
returns the collected header lines and the final `data_start`. -/
def collectHeadersAux : Nat → Nat → Nat → List String → List String →
    List String × Nat
  | 0, _, ds, hl, _ => (hl, ds)
  | _ + 1, _, ds, hl, [] => (hl, ds)
  | n + 1, i, ds, hl, line :: rest =>
    if hasRepairKw line then collectHeadersAux n (i + 1) (i + 1) (hl ++ [line]) rest
    else if matchID7to10 line then (hl, ds)
    else collectHeadersAux n (i + 1) (i + 1) hl rest

/-- Fuel-indexed ID-anchored record parser: on a bare ID line, emit
`[id, next, next_next]`, optionally skipping a following lone 1–2 digit
row-number line, and continue; otherwise advance one line.  Each step
shortens the line list, so `fuel = length` runs the loop to completion. -/
def parseRecsAux : Nat → List String → List (List String)
  | 0, _ => []
  | _ + 1, [] => []
  | fuel + 1, line :: rest =>
    if matchID7to10 line then
      let rem := rest.drop 2
      let rem2 :=
        if pyIsdigit (rem.headD "") && decide ((rem.headD "").length ≤ 2) then
          rem.drop 1
        else rem
      [line, rest.getD 0 "", rest.getD 1 ""] :: parseRecsAux fuel rem2
    else parseRecsAux fuel rest

/-- The `while i < len(data_lines)` record-parsing loop. -/
def parseRecs (l : List String) : List (List String) := parseRecsAux l.length l

/-- What one original row adds to `repaired_rows`: with a header cluster,
the headers (only while `repaired_rows` is still empty) followed by the
records parsed after `data_start`; otherwise the records parsed from all
lines. -/
def rowRepairContribution (hasRowsAlready : Bool) (lines : List String) :
    List (List String) :=
  match lines.findIdx? hasRepairKw with
  | some hs =>
    let c := collectHeadersAux (min 5 (lines.length - hs)) hs hs [] (lines.drop hs)
    let headers :=
      if 3 ≤ c.1.length then c.1.take 3 else ["ID", "First Name", "Last Name"]
    (if hasRowsAlready then [] else [headers]) ++ parseRecs (lines.drop c.2)
  | none => parseRecs lines

/-- One iteration of the row loop of `repair_collapsed_table_structure`:
rows with an empty first cell or only blank content are skipped, every other
row appends its contribution to `repaired_rows`. -/
def repairStep (acc : List (List String)) (row : List String) : List (List String) :=
  match row with
  | [] => acc
  | c0 :: _ =>
    if c0 = "" then acc
    else
      let content := pyStrip c0
      if content = "" then acc
      else
        let lines := rowLines content
        if lines.isEmpty then acc
        else acc ++ rowRepairContribution (!acc.isEmpty) lines

/-- The row loop of `repair_collapsed_table_structure`, accumulating
`repaired_rows`. -/
def repairedRows (rows : List (List String)) : List (List String) :=
  rows.foldl repairStep []

/-- Embedding of `repair_collapsed_table_structure(table)`: `none` exactly
when `repaired_rows` stayed empty. -/
def repair_collapsed_table_structure (t : PyTable) : Option PyTable :=
  let rr := repairedRows t.rows
  if rr.isEmpty then none
  else some { row_count := rr.length, column_count := 3, rows := rr }

/-- The caller's acceptance logic in `extract_final_table` (lines 655–661):
use the repaired table when repair succeeds, otherwise keep the original. -/
def tableAfterRepair (t : PyTable) : PyTable :=
  if detect_collapsed_table_structure t then
    match repair_collapsed_table_structure t with
    | some r => r
    | none => t
  else t

/-- Specification-side characterisation of a row that adds nothing to
`repaired_rows`: it is skipped (empty first cell / blank content / no
non-blank lines), or its lines have no header-keyword line and parse to no
ID-anchored records. -/
def rowYieldsNothing (row : List String) : Bool :=
  match row with
  | [] => true
  | c0 :: _ =>
    if c0 = "" then true
    else
      let content := pyStrip c0
      if content = "" then true
      else
        let lines := rowLines content
        if lines.isEmpty then true
        else (lines.findIdx? hasRepairKw).isNone && (parseRecs lines).isEmpty

/-!
Embedding of `is_likely_data` from `batch_ocr_processor.py` (the Header
Classifier).  The rules are checked in source order; any rule returning
true decides the result.
-/

/-- The OCR-artifact token list of `is_likely_data`. -/
def ocrArtifacts : List String :=
  ["V(PINVIS", "Nd DOIS", "Good Neutral", ":selected:", ":unselected:"]

/-- Embedding of `is_likely_data(value)`. -/
def is_likely_data (value : String) : Bool :=
  if value = "" then false
  else
    let v := pyStrip value
    if matchSlashDate v then true
    else if matchDashDate v then true
    else if matchDotDate v then true
    else if pyIsdigit v && decide (7 ≤ v.length) && decide (v.length ≤ 12) then true
    else if matchPhone v || (pyIsdigit v && decide (v.length = 10)) then true
    else if 3 ≤ hebrewRunCount v.data then true
    else if pyIn "ו" v && 2 ≤ hebrewRunCount v.data then true
    else if 25 < v.length then true
    else if (pyIn "|" v || pyIn "," v) && 8 < v.length then true
    else if ocrArtifacts.any (fun a => pyIn a v) then true
    else false

/-!
Embedding of the column-removal stages of `ColumnNormalizer`
(`column_normalizer.py`).  A DataFrame is modelled as its row count plus an
ordered list of named columns of optional cells (`none` = pandas NA).
The density thresholds `0.05` and `0.6` are float literals in the source;
for the sample sizes the code reaches (≤ 20 for the ID sampler) the float
comparisons coincide with the exact rational comparisons used here, and the
thresholds never apply to the `Source File` column in any case.
-/

/-- DataFrame model: row count and named columns of optional cells. -/
structure Df where
  nRows : Nat
  cols : List (String × List (Option String))
deriving DecidableEq

/-- The column labels, `df.columns`. -/
def Df.colNames (df : Df) : List String := df.cols.map Prod.fst

/-- `df[col].notna().sum()`. -/
def notnaCount (c : List (Option String)) : Nat := (c.filterMap id).length

/-- Count of non-null, non-blank values of a column
(`filter_low_quality_columns`'s `meaningful_values`). -/
def meaningfulCount (c : List (Option String)) : Nat :=
  ((c.filterMap id).filter (fun v => pyStrip v ≠ "")).length

/-- The data-likeness test of `filter_data_promoted_columns`, applied to the
stripped column name (its eight patterns, an `elif` chain that is a plain
disjunction). -/
def isDataPromotedName (colStr : String) : Bool :=
  matchSlashDate colStr || matchDashDate colStr || matchDotDate colStr ||
    (pyIsdigit colStr && decide (7 ≤ colStr.length) && decide (colStr.length ≤ 12)) ||
    matchPhone colStr || (pyIsdigit colStr && decide (colStr.length = 10)) ||
    decide (3 ≤ hebrewRunCount colStr.data) ||
    (pyIn "ו" colStr && decide (2 ≤ hebrewRunCount colStr.data)) ||
    decide (30 < colStr.length) ||
    ((pyIn "|" colStr || pyIn "," colStr) && decide (10 < colStr.length)) ||
    (["V(PINVIS", "Nd DOIS", "Good Neutral"].any (fun a => pyIn a colStr))

/-- Embedding of `filter_data_promoted_columns(df)`: drop every column whose
name looks like data, skipping `Source File` and blank names. -/
def filter_data_promoted_columns (df : Df) : Df :=
  let toRemove := df.colNames.filter (fun col =>
    col ≠ "Source File" && pyStrip col ≠ "" && isDataPromotedName (pyStrip col))
  { df with cols := df.cols.filter (fun c => decide (c.1 ∉ toRemove)) }

/-- Embedding of `filter_empty_columns(df)`: its three sequential removal
conditions (unnamed/blank with < 5 values; blank or all-whitespace name;
single-digit name with < 10 values), skipping `Source File`. -/
def filter_empty_columns (df : Df) : Df :=
  let toRemove := (df.cols.filter (fun c =>
    let s := pyStrip c.1
    if c.1 = "Source File" then false
    else if (pyStartsWith s "Unnamed:" || s = "") && notnaCount c.2 < 5 then true
    else if s.length = 0 || pyIsSpaceStr s then true
    else if ((s.length = 1 && pyIsdigit s) ||
        ["1", "2", "3", "4", "5"].any (fun d => d = s)) && notnaCount c.2 < 10 then
      true
    else false)).map Prod.fst
  { df with cols := df.cols.filter (fun c => decide (c.1 ∉ toRemove)) }

/-- Embedding of `filter_low_quality_columns(df)`: drop columns below 5 %
density when the corpus has more than 100 rows, and columns with fewer than
3 meaningful values, skipping `Source File`. -/
def filter_low_quality_columns (df : Df) : Df :=
  let toRemove := (df.cols.filter (fun c =>
    if c.1 = "Source File" then false
    else if 100 < df.nRows && 20 * meaningfulCount c.2 < df.nRows then true
    else meaningfulCount c.2 < 3)).map Prod.fst
  { df with cols := df.cols.filter (fun c => decide (c.1 ∉ toRemove)) }

/-- Regular (9-digit) ID pattern of `fix_misplaced_id_data`. -/
def regularIdB (s : String) : Bool := pyIsdigit s && decide (s.length = 9)

/-- Military (7–8 digit) ID pattern of `fix_misplaced_id_data`. -/
def militaryIdB (s : String) : Bool :=
  pyIsdigit s && decide (7 ≤ s.length) && decide (s.length ≤ 8)

/-- General (7–10 digit) ID pattern of `fix_misplaced_id_data`. -/
def generalIdB (s : String) : Bool :=
  pyIsdigit s && decide (7 ≤ s.length) && decide (s.length ≤ 10)

/-- Columns skipped by `fix_misplaced_id_data` (they legitimately hold
numbers). -/
def idSkipCols : List String :=
  ["ID", "Employee Number", "Serial Number", "Military ID", "Phone Number",
   "Phone", "Source File"]

/-- The sampling loop of `fix_misplaced_id_data`:
`(id_like_count, military_like_count, regular_id_like_count)`. -/
def idStats (sample : List String) : Nat × Nat × Nat :=
  sample.foldl
    (fun acc val =>
      let v := pyStrip val
      if regularIdB v then (acc.1 + 1, acc.2.1, acc.2.2 + 1)
      else if militaryIdB v then (acc.1 + 1, acc.2.1 + 1, acc.2.2)
      else if generalIdB v then (acc.1 + 1, acc.2.1, acc.2.2)
      else acc)
    (0, 0, 0)

/-- The `problematic_columns` list: each non-skipped column whose first 20
non-null values are ≥ 60 % (and ≥ 3) ID-like, tagged `Military ID` or `ID`. -/
def problematicCols (df : Df) : List (String × String) :=
  df.cols.filterMap (fun c =>
    if decide (c.1 ∈ idSkipCols) then none
    else
      let sample := (c.2.filterMap id).take 20
      if sample.length = 0 then none
      else
        let st := idStats sample
        if 3 * sample.length ≤ 5 * st.1 && 3 ≤ st.1 then
          some (c.1,
            if st.2.2 < st.2.1 && 3 * sample.length ≤ 5 * st.2.1 then "Military ID"
            else "ID")
        else none)

/-- Cell update of the merge loop: a general-ID-shaped source value moves
into the target cell when the target is NA or blank, clearing the source. -/
def mergeCellPair (tgt src : Option String) : Option String × Option String :=
  match src with
  | some s =>
    if generalIdB (pyStrip s) then
      match tgt with
      | none => (some (pyStrip s), none)
      | some t =>
        if pyStrip t = "" then (some (pyStrip s), none) else (some t, some s)
    else (tgt, some s)
  | none => (tgt, none)

/-- Merge a problematic column's ID-shaped values into the target column,
row by row. -/
def mergeInto (df : Df) (src tgt : String) : Df :=
  let srcCells := ((df.cols.find? (fun c => c.1 = src)).map Prod.snd).getD []
  let tgtCells := ((df.cols.find? (fun c => c.1 = tgt)).map Prod.snd).getD []
  let pairs := (tgtCells.zip srcCells).map (fun p => mergeCellPair p.1 p.2)
  { df with cols := df.cols.map (fun c =>
      if c.1 = tgt then (c.1, pairs.map Prod.fst)
      else if c.1 = src then (c.1, pairs.map Prod.snd)
      else c) }

/-- `df.rename(columns={src: tgt})`. -/
def renameCol (df : Df) (src tgt : String) : Df :=
  { df with cols := df.cols.map (fun c => if c.1 = src then (tgt, c.2) else c) }

/-- Embedding of `fix_misplaced_id_data(df)`: for each problematic column,
merge into an existing target column or rename it to the target name. -/
def fix_misplaced_id_data (df : Df) : Df :=
  (problematicCols df).foldl
    (fun d p =>
      if decide (p.2 ∈ d.colNames) then mergeInto d p.1 p.2
      else renameCol d p.1 p.2)
    df

/-!
Claim theorems.
-/

/-- Claim C1, counterexample.  On the rows
`[["A","B","C"], ["123456789","John","Doe"]]` the structure detector does
NOT return the headerless/transposed sentinel −1 as the claim states: the
first row is disqualified as a spreadsheet-UI row (bare column letters) and
the scan then selects row 1, so the returned header index is 1. -/
theorem c1_counterexample :
    (detect_table_structure
      [["A", "B", "C"], ["123456789", "John", "Doe"]]).1 ≠ (-1 : Int) := by
  decide

/-- Claim C1, amended.  On `[["A","B","C"], ["123456789","John","Doe"]]`
the structure detector disqualifies row 0 as a spreadsheet-UI row, selects
row 1 (a mostly-text row) as the header row, and returns header index 1
with headers `["123456789","John","Doe"]`, leaving the row list unchanged. -/
theorem c1_detect_excel_ui_headers :
    detect_table_structure [["A", "B", "C"], ["123456789", "John", "Doe"]] =
      (1, ["123456789", "John", "Doe"],
        [["A", "B", "C"], ["123456789", "John", "Doe"]]) := by
  decide

/-- Claim C6 (code bug).  For the real-Hebrew headers
`["שם פרטי","שם משפחה","תז"]` the reorder step is the identity — no role
keyword matches, because the code's Hebrew keyword literals are mojibake —
although the spec (and the intent of the code) require the ID column to be
moved first. -/
theorem c6_mojibake_no_reorder :
    reorderTable ["שם פרטי", "שם משפחה", "תז"]
        [["Dov", "Mendel", "123456789"]] =
      (["שם פרטי", "שם משפחה", "תז"], [["Dov", "Mendel", "123456789"]]) := by
  decide

/-- Claim C7, confirmed.  Repairing the collapsed single-cell table whose
content lists three header lines, an ID-anchored record, a lone row-number
line and a second ID-anchored record yields the headers
`["ID","First Name","Last Name"]` and exactly the two data rows. -/
theorem c7_collapsed_repair_scenario :
    repair_collapsed_table_structure
        ⟨1, 1, [["ID\nFirst Name\nLast Name\n123456789\nDov\nMendelovich\n1\n987654321\nEyal\nCohen"]]⟩ =
      some ⟨3, 3,
        [["ID", "First Name", "Last Name"],
         ["123456789", "Dov", "Mendelovich"],
         ["987654321", "Eyal", "Cohen"]]⟩ := by
  decide

/-- Claim C3, counterexample.  With headers `["ID","ID2"]` both headers
match the ID role; the loop assigns the LAST match, index 1, not the first
(index 0), and the reordered headers start with `"ID2"`. -/
theorem c3_counterexample :
    (roleCols ["ID", "ID2"]).id_col = some 1 ∧
      (reorderTable ["ID", "ID2"] [["a", "b"]]).1 = ["ID2", "ID"] := by
  decide

/-- Claim C4, counterexample.  With headers `["Employee ID","ID"]` (both
match the ID role) one application of the reorder step gives headers
`["ID","Employee ID"]`, but a second application flips them back, so
reordering is not idempotent. -/
theorem c4_counterexample :
    reorderTable (reorderTable ["Employee ID", "ID"] [["a", "b"]]).1
        (reorderTable ["Employee ID", "ID"] [["a", "b"]]).2 ≠
      reorderTable ["Employee ID", "ID"] [["a", "b"]] := by
  decide

/-- Claim C5, counterexample.  A collapsed row containing only header
vocabulary (`"ID\nFirst Name\nLast Name"`) yields NO ID-anchored records,
yet the repairer returns a non-null repaired table consisting of the header
row alone — contradicting both "returns null exactly when no ID-anchored
records were recovered" and "never returns a repaired table containing zero
recovered records". -/
theorem c5_counterexample :
    repair_collapsed_table_structure ⟨1, 1, [["ID\nFirst Name\nLast Name"]]⟩ =
        some ⟨1, 3, [["ID", "First Name", "Last Name"]]⟩ ∧
      parseRecs (rowLines "ID\nFirst Name\nLast Name") = [] := by
  decide

/-- Claim C8, counterexample.  The string `"99-01-02"` is a Y-M-D date with
a 2-digit year, yet the Header Classifier returns false: the code's Y-M-D
pattern demands a 4-digit year. -/
theorem c8_counterexample : is_likely_data "99-01-02" = false := by
  decide

/-!
Characterisation of the role-detection loop: because every keyword match
overwrites the role variable, the assigned column is the LAST matching
index.  `lastIdxFrom r k l` is the specification-side "last index (counting
from `k`) whose header matches role `r`".
-/

/-- Last index (offset by `k`) of a header with role `r`, or `none`. -/
def lastIdxFrom (r : Role) (k : Nat) : List String → Option Nat
  | [] => none
  | s :: t =>
    match lastIdxFrom r (k + 1) t with
    | some j => some j
    | none => if roleOf s = some r then some k else none

theorem getRole_roleStep (acc : RoleAcc) (k : Nat) (s : String) (r : Role) :
    getRole (roleStep acc (k, s)) r =
      if roleOf s = some r then some k else getRole acc r := by
  cases hs : roleOf s with
  | none => simp [roleStep, hs]
  | some r' => cases r' <;> cases r <;> simp [roleStep, getRole, hs]

theorem roleFold_spec (l : List String) :
    ∀ (k : Nat) (acc : RoleAcc) (r : Role),
      getRole ((List.enumFrom k l).foldl roleStep acc) r =
        (match lastIdxFrom r k l with
         | some j => some j
         | none => getRole acc r) := by
  induction l with
  | nil => intro k acc r; simp [lastIdxFrom]
  | cons s t ih =>
    intro k acc r
    rw [List.enumFrom_cons, List.foldl_cons, ih (k + 1) (roleStep acc (k, s)) r]
    show _ = (match lastIdxFrom r k (s :: t) with
              | some j => some j
              | none => getRole acc r)
    rw [show lastIdxFrom r k (s :: t) =
          (match lastIdxFrom r (k + 1) t with
           | some j => some j
           | none => if roleOf s = some r then some k else none) from rfl]
    cases h : lastIdxFrom r (k + 1) t with
    | some j => simp
    | none =>
      rw [getRole_roleStep]
      cases hr : roleOf s with
      | none =>
        by_cases hrr : (none : Option Role) = some r <;> simp [hrr]
      | some r' =>
        by_cases hrr : r' = r
        · subst hrr; simp
        · simp [hrr]

theorem lastIdxFrom_some (r : Role) (l : List String) :
    ∀ (k j : Nat), lastIdxFrom r k l = some j →
      ∃ m, j = k + m ∧ m < l.length ∧ roleOf (l.getD m "") = some r := by
  induction l with
  | nil => intro k j h; simp [lastIdxFrom] at h
  | cons s t ih =>
    intro k j h
    rw [show lastIdxFrom r k (s :: t) =
          (match lastIdxFrom r (k + 1) t with
           | some j => some j
           | none => if roleOf s = some r then some k else none) from rfl] at h
    cases ht : lastIdxFrom r (k + 1) t with
    | some j' =>
      rw [ht] at h
      have hj : j' = j := by simpa using h
      subst hj
      obtain ⟨m', hm1, hm2, hm3⟩ := ih (k + 1) j' ht
      refine ⟨m' + 1, by omega, ?_, by simpa using hm3⟩
      simp only [List.length_cons]
      omega
    | none =>
      rw [ht] at h
      by_cases hr : roleOf s = some r
      · rw [if_pos hr] at h
        have hk : k = j := by simpa using h
        exact ⟨0, by omega, by simp, by simpa using hr⟩
      · rw [if_neg hr] at h
        exact absurd h (by simp)

theorem lastIdxFrom_none (r : Role) (l : List String) :
    ∀ (k : Nat), lastIdxFrom r k l = none →
      ∀ m, m < l.length → roleOf (l.getD m "") ≠ some r := by
  induction l with
  | nil => intro k _ m hm; simp at hm
  | cons s t ih =>
    intro k h m hm
    rw [show lastIdxFrom r k (s :: t) =
          (match lastIdxFrom r (k + 1) t with
           | some j => some j
           | none => if roleOf s = some r then some k else none) from rfl] at h
    cases ht : lastIdxFrom r (k + 1) t with
    | some j' => rw [ht] at h; exact absurd h (by simp)
    | none =>
      rw [ht] at h
      by_cases hr : roleOf s = some r
      · rw [if_pos hr] at h; exact absurd h (by simp)
      · cases m with
        | zero => simpa using hr
        | succ m' =>
          simp only [List.getD_cons_succ]
          exact ih (k + 1) ht m' (by simpa using hm)

theorem roleCols_getRole (headers : List String) (r : Role) :
    getRole (roleCols headers) r = lastIdxFrom r 0 headers := by
  show getRole ((List.enumFrom 0 headers).foldl roleStep ⟨none, none, none⟩) r = _
  rw [roleFold_spec headers 0 ⟨none, none, none⟩ r]
  cases h : lastIdxFrom r 0 headers with
  | some j => simp
  | none => cases r <;> simp [getRole]

/-- Claim C3, amended theorem.  For every header list and role, the column
the loop assigns to the role is exactly the LAST index whose header matches
that role's keyword set (at most one column per role, last match wins —
not the first match as the claim states). -/
theorem c3_last_match_wins (headers : List String) (r : Role) :
    getRole (roleCols headers) r = lastIdxFrom r 0 headers :=
  roleCols_getRole headers r

theorem mem_baseOrder_lt (headers : List String) :
    ∀ i ∈ baseOrder headers, i < headers.length := by
  intro i hi
  have hcases :
      (roleCols headers).id_col = some i ∨
        (roleCols headers).fname_col = some i ∨
          (roleCols headers).lname_col = some i := by
    simp only [baseOrder, List.mem_append, Option.mem_toList, Option.mem_def] at hi
    tauto
  have hrole : ∃ r : Role, lastIdxFrom r 0 headers = some i := by
    rcases hcases with h | h | h
    · exact ⟨.roleId, by rw [← roleCols_getRole]; exact h⟩
    · exact ⟨.roleFname, by rw [← roleCols_getRole]; exact h⟩
    · exact ⟨.roleLname, by rw [← roleCols_getRole]; exact h⟩
  obtain ⟨r, hr⟩ := hrole
  obtain ⟨m, hm1, hm2, _⟩ := lastIdxFrom_some r headers 0 i hr
  omega

theorem mem_newOrder_lt (headers : List String) :
    ∀ i ∈ newOrder headers, i < headers.length := by
  intro i hi
  simp only [newOrder, List.mem_append] at hi
  rcases hi with hi | hi
  · exact mem_baseOrder_lt headers i hi
  · exact List.mem_range.mp (List.mem_filter.mp hi).1

/-- Claim C9, confirmed.  Row projection is total: the projected row always
has exactly one cell per index of the new order, every index of the new
order lies below the header count, and each projected cell equals the source
cell when its index is in range and the empty string exactly when the index
is at or beyond the row's length (the only way a cell can be "absent"). -/
theorem c9_projection_total (headers row : List String) (k : Nat)
    (hk : k < (newOrder headers).length) :
    (projectRow (newOrder headers) row).length = (newOrder headers).length ∧
      (newOrder headers).getD k 0 < headers.length ∧
      (projectRow (newOrder headers) row).getD k "?" =
        (if (newOrder headers).getD k 0 < row.length then
          row.getD ((newOrder headers).getD k 0) ""
        else "") := by
  have hlen : (projectRow (newOrder headers) row).length = (newOrder headers).length :=
    List.length_map _ _
  have hget : (newOrder headers).getD k 0 = (newOrder headers)[k] := by
    rw [List.getD_eq_getElem?_getD, List.getElem?_eq_getElem hk]
    rfl
  refine ⟨hlen, ?_, ?_⟩
  · rw [hget]
    exact mem_newOrder_lt headers _ (List.getElem_mem hk)
  · rw [hget]
    have hproj : (projectRow (newOrder headers) row).getD k "?" =
        row.getD ((newOrder headers)[k]) "" := by
      rw [List.getD_eq_getElem?_getD, projectRow, List.getElem?_map,
        List.getElem?_eq_getElem hk]
      rfl
    rw [hproj]
    by_cases hr : (newOrder headers)[k] < row.length
    · rw [if_pos hr]
    · rw [if_neg hr]
      rw [List.getD_eq_getElem?_getD, List.getElem?_eq_none (by omega)]
      rfl

/-- Claim C9, witness: the theorem instantiated at headers `["A","B"]`, the
one-cell row `["x"]` and position 1, whose order index 1 is out of range for
the row, so the projected cell is the empty string. -/
theorem c9_witness :
    (0 : Nat) < (newOrder ["A", "B"]).length ∧
      (projectRow (newOrder ["A", "B"]) ["x"]).length = (newOrder ["A", "B"]).length := by
  refine ⟨by decide, ?_⟩
  exact (c9_projection_total ["A", "B"] ["x"] 0 (by decide)).1

theorem repairStep_ne_nil (acc : List (List String)) (row : List String)
    (h : acc ≠ []) : repairStep acc row ≠ [] := by
  unfold repairStep
  cases row with
  | nil => exact h
  | cons c0 rest =>
    by_cases h0 : c0 = ""
    · simpa [h0]
    · simp only [h0, if_false]
      by_cases h1 : pyStrip c0 = ""
      · simpa [h1]
      · simp only [h1, if_false]
        by_cases h2 : (rowLines (pyStrip c0)).isEmpty
        · simpa [h2]
        · simp only [h2, if_false]
          intro hc
          exact h (List.append_eq_nil.mp hc).1

theorem repairStep_nil_iff (row : List String) :
    repairStep [] row = [] ↔ rowYieldsNothing row = true := by
  unfold repairStep rowYieldsNothing
  cases row with
  | nil => simp
  | cons c0 rest =>
    by_cases h0 : c0 = ""
    · simp [h0]
    · simp only [h0, if_false]
      by_cases h1 : pyStrip c0 = ""
      · simp [h1]
      · simp only [h1, if_false]
        by_cases h2 : (rowLines (pyStrip c0)).isEmpty
        · simp [h2]
        · simp only [h2, if_false, List.nil_append, List.isEmpty_nil, Bool.not_true]
          unfold rowRepairContribution
          cases hf : (rowLines (pyStrip c0)).findIdx? hasRepairKw with
          | some hs => simp [hf]
          | none => simp [hf, List.isEmpty_iff]

theorem repairFold_nil_iff (rows : List (List String)) :
    ∀ acc : List (List String),
      (rows.foldl repairStep acc = [] ↔
        acc = [] ∧ ∀ row ∈ rows, rowYieldsNothing row = true) := by
  induction rows with
  | nil => intro acc; simp
  | cons row t ih =>
    intro acc
    rw [List.foldl_cons, ih (repairStep acc row)]
    constructor
    · rintro ⟨hstep, hall⟩
      by_cases hacc : acc = []
      · subst hacc
        exact ⟨rfl, by
          intro r hr
          rcases List.mem_cons.mp hr with h | h
          · exact h ▸ (repairStep_nil_iff row).mp hstep
          · exact hall r h⟩
      · exact absurd hstep (repairStep_ne_nil acc row hacc)
    · rintro ⟨hacc, hall⟩
      subst hacc
      refine ⟨(repairStep_nil_iff row).mpr (hall row (List.mem_cons_self row t)), ?_⟩
      intro r hr
      exact hall r (List.mem_cons_of_mem row hr)

/-- Claim C5, amended theorem.  The collapsed-table repairer returns `none`
exactly when every original row yields nothing — no header-keyword line and
no ID-anchored records (or the row is skipped as blank) — and in that case
the caller of `extract_final_table` keeps the original table unchanged.
(The original claim fails because a row with header vocabulary but no
records produces a non-null, zero-record repaired table.) -/
theorem c5_repair_none_iff (t : PyTable) :
    (repair_collapsed_table_structure t = none ↔
      ∀ row ∈ t.rows, rowYieldsNothing row = true) ∧
      (repair_collapsed_table_structure t = none → tableAfterRepair t = t) := by
  have hchar : repair_collapsed_table_structure t = none ↔
      ∀ row ∈ t.rows, rowYieldsNothing row = true := by
    unfold repair_collapsed_table_structure
    have hfold := repairFold_nil_iff t.rows []
    by_cases h : (repairedRows t.rows).isEmpty
    · simp only [h, if_true, true_iff]
      have : repairedRows t.rows = [] := List.isEmpty_iff.mp h
      exact ((hfold.mp (by simpa [repairedRows] using this))).2
    · simp only [h, if_false]
      constructor
      · intro hc; exact absurd hc (by simp)
      · intro hall
        have : repairedRows t.rows = [] := hfold.mpr ⟨rfl, hall⟩
        exact absurd (List.isEmpty_iff.mpr (by simpa [repairedRows] using this)) h
  refine ⟨hchar, ?_⟩
  intro hnone
  unfold tableAfterRepair
  by_cases hd : detect_collapsed_table_structure t
  · simp [hd, hnone]
  · simp [hd]

/-- Claim C5, witness: the theorem instantiated at the one-row table
`[["hello"]]`, whose single line holds neither header vocabulary nor an ID,
so repair returns `none` and the caller keeps the table. -/
theorem c5_witness :
    repair_collapsed_table_structure ⟨1, 1, [["hello"]]⟩ = none ∧
      tableAfterRepair ⟨1, 1, [["hello"]]⟩ = ⟨1, 1, [["hello"]]⟩ := by
  have h := c5_repair_none_iff ⟨1, 1, [["hello"]]⟩
  have hn : repair_collapsed_table_structure ⟨1, 1, [["hello"]]⟩ = none :=
    h.1.mpr (by decide)
  exact ⟨hn, h.2 hn⟩

theorem takeWhile_all (p : Char → Bool) (l : List Char)
    (h : ∀ c ∈ l, p c = true) : l.takeWhile p = l := by
  induction l with
  | nil => rfl
  | cons c t ih =>
    rw [List.takeWhile_cons_of_pos (h c (List.mem_cons_self c t))]
    rw [ih (fun x hx => h x (List.mem_cons_of_mem c hx))]

theorem takeWhile_sep (p : Char → Bool) (d : List Char) (x : Char) (r : List Char)
    (hd : ∀ c ∈ d, p c = true) (hx : p x = false) :
    (d ++ x :: r).takeWhile p = d := by
  induction d with
  | nil => simpa using List.takeWhile_cons_of_neg (l := r) (by simp [hx])
  | cons c t ih =>
    rw [List.cons_append, List.takeWhile_cons_of_pos (hd c (List.mem_cons_self c t))]
    rw [ih (fun a ha => hd a (List.mem_cons_of_mem c ha))]

theorem dropWhile_sep (p : Char → Bool) (d : List Char) (x : Char) (r : List Char)
    (hd : ∀ c ∈ d, p c = true) (hx : p x = false) :
    (d ++ x :: r).dropWhile p = x :: r := by
  induction d with
  | nil => simpa using List.dropWhile_cons_of_neg (l := r) (by simp [hx])
  | cons c t ih =>
    rw [List.cons_append, List.dropWhile_cons_of_pos (hd c (List.mem_cons_self c t))]
    exact ih (fun a ha => hd a (List.mem_cons_of_mem c ha))

theorem span_sep (p : Char → Bool) (d : List Char) (x : Char) (r : List Char)
    (hd : ∀ c ∈ d, p c = true) (hx : p x = false) :
    (d ++ x :: r).span p = (d, x :: r) := by
  rw [List.span_eq_take_drop, takeWhile_sep p d x r hd hx, dropWhile_sep p d x r hd hx]

theorem digit_not_space (c : Char) (h : pyIsDigitChar c = true) :
    pyIsSpaceChar c = false := by
  simp only [pyIsDigitChar, Bool.and_eq_true, decide_eq_true_eq] at h
  simp only [pyIsSpaceChar, Bool.or_eq_false_iff, decide_eq_false_iff_not]
  refine ⟨⟨⟨⟨⟨?_, ?_⟩, ?_⟩, ?_⟩, ?_⟩, ?_⟩ <;>
    rintro rfl <;> exact absurd h.1 (by decide)

theorem dropWhile_eq_self_of (p : Char → Bool) (l : List Char)
    (h : ∀ c ∈ l, p c = false) : l.dropWhile p = l := by
  cases l with
  | nil => rfl
  | cons c t => exact List.dropWhile_cons_of_neg (by simp [h c (List.mem_cons_self c t)])

theorem pyStrip_id (l : List Char) (h : ∀ c ∈ l, pyIsSpaceChar c = false) :
    pyStrip ⟨l⟩ = ⟨l⟩ := by
  show (⟨((l.dropWhile pyIsSpaceChar).reverse.dropWhile pyIsSpaceChar).reverse⟩ :
      String) = ⟨l⟩
  rw [dropWhile_eq_self_of pyIsSpaceChar l h,
    dropWhile_eq_self_of pyIsSpaceChar l.reverse
      (fun c hc => h c (List.mem_reverse.mp hc)),
    List.reverse_reverse]

theorem matchSepDate_of (sep : Char) (lo1 hi1 lo2 hi2 lo3 : Nat)
    (d m y : List Char) (hsep : pyIsDigitChar sep = false)
    (hd : ∀ c ∈ d, pyIsDigitChar c = true)
    (hm : ∀ c ∈ m, pyIsDigitChar c = true)
    (hy : ∀ c ∈ y, pyIsDigitChar c = true)
    (h1 : lo1 ≤ d.length) (h2 : d.length ≤ hi1)
    (h3 : lo2 ≤ m.length) (h4 : m.length ≤ hi2) (h5 : lo3 ≤ y.length) :
    matchSepDate sep lo1 hi1 lo2 hi2 lo3 ⟨d ++ sep :: (m ++ sep :: y)⟩ = true := by
  show (let p := (d ++ sep :: (m ++ sep :: y)).span pyIsDigitChar
    decide (lo1 ≤ p.1.length) && decide (p.1.length ≤ hi1) &&
      !p.2.isEmpty && decide (p.2.headD ' ' = sep) &&
      (let q := (p.2.drop 1).span pyIsDigitChar
       decide (lo2 ≤ q.1.length) && decide (q.1.length ≤ hi2) &&
         !q.2.isEmpty && decide (q.2.headD ' ' = sep) &&
         decide (lo3 ≤ ((q.2.drop 1).takeWhile pyIsDigitChar).length))) = true
  simp only [span_sep pyIsDigitChar d sep (m ++ sep :: y) hd hsep,
    span_sep pyIsDigitChar m sep y hm hsep, List.headD_cons, List.drop_succ_cons,
    List.drop_zero, List.isEmpty_cons, takeWhile_all pyIsDigitChar y hy]
  simp [h1, h2, h3, h4, h5]

theorem matchSepDate_wrong_sep (sep x : Char) (lo1 hi1 lo2 hi2 lo3 : Nat)
    (d r : List Char) (hd : ∀ c ∈ d, pyIsDigitChar c = true)
    (hx : pyIsDigitChar x = false) (hxs : ¬x = sep) :
    matchSepDate sep lo1 hi1 lo2 hi2 lo3 ⟨d ++ x :: r⟩ = false := by
  show (let p := (d ++ x :: r).span pyIsDigitChar
    decide (lo1 ≤ p.1.length) && decide (p.1.length ≤ hi1) &&
      !p.2.isEmpty && decide (p.2.headD ' ' = sep) &&
      (let q := (p.2.drop 1).span pyIsDigitChar
       decide (lo2 ≤ q.1.length) && decide (q.1.length ≤ hi2) &&
         !q.2.isEmpty && decide (q.2.headD ' ' = sep) &&
         decide (lo3 ≤ ((q.2.drop 1).takeWhile pyIsDigitChar).length))) = false
  simp only [span_sep pyIsDigitChar d x r hd hx, List.headD_cons, List.isEmpty_cons]
  simp [hxs]

theorem is_likely_data_of_sep (l : List Char) (hne : l ≠ [])
    (hsp : ∀ c ∈ l, pyIsSpaceChar c = false) :
    is_likely_data ⟨l⟩ =
      (if matchSlashDate ⟨l⟩ then true
       else if matchDashDate ⟨l⟩ then true
       else if matchDotDate ⟨l⟩ then true
       else if pyIsdigit ⟨l⟩ && decide (7 ≤ (⟨l⟩ : String).length) &&
           decide ((⟨l⟩ : String).length ≤ 12) then true
       else if matchPhone ⟨l⟩ ||
           (pyIsdigit ⟨l⟩ && decide ((⟨l⟩ : String).length = 10)) then true
       else if 3 ≤ hebrewRunCount l then true
       else if pyIn "ו" ⟨l⟩ && 2 ≤ hebrewRunCount l then true
       else if 25 < (⟨l⟩ : String).length then true
       else if (pyIn "|" ⟨l⟩ || pyIn "," ⟨l⟩) && 8 < (⟨l⟩ : String).length then true
       else if ocrArtifacts.any (fun a => pyIn a ⟨l⟩) then true
       else false) := by
  have hne' : (⟨l⟩ : String) ≠ "" := by
    intro hc
    exact hne (congrArg String.data hc)
  show (if (⟨l⟩ : String) = "" then false else _) = _
  rw [if_neg hne', pyStrip_id l hsp]

/-- Claim C8, amended theorem.  For all-digit components `d`, `m`, `y` with
1–2, 1–2 and 2–4 digits respectively, the Header Classifier classifies
`d/m/y` and `d.m.y` as data; the Y-M-D form is classified as data when the
year has exactly 4 digits and month and day exactly 2 (the code's pattern
is `\d{4}-\d{2}-\d{2}`, so Y-M-D dates with 2–3 digit years are NOT
classified as data, contrary to the original claim). -/
theorem sep_string_no_space (d m y : List Char) (x : Char)
    (hx : pyIsSpaceChar x = false)
    (hd : ∀ c ∈ d, pyIsDigitChar c = true)
    (hm : ∀ c ∈ m, pyIsDigitChar c = true)
    (hy : ∀ c ∈ y, pyIsDigitChar c = true) :
    ∀ c ∈ d ++ x :: (m ++ x :: y), pyIsSpaceChar c = false := by
  intro c hc
  rcases List.mem_append.mp hc with h | h
  · exact digit_not_space c (hd c h)
  rcases List.mem_cons.mp h with h | h
  · exact h ▸ hx
  rcases List.mem_append.mp h with h | h
  · exact digit_not_space c (hm c h)
  rcases List.mem_cons.mp h with h | h
  · exact h ▸ hx
  · exact digit_not_space c (hy c h)

/-- Claim C8, amended theorem.  For all-digit components `d`, `m`, `y` with
1–2, 1–2 and 2–4 digits respectively, the Header Classifier classifies
`d/m/y` and `d.m.y` as data; the Y-M-D form is classified as data when the
year has exactly 4 digits and month and day exactly 2 (the code's pattern
is `\d{4}-\d{2}-\d{2}`, so Y-M-D dates with 2–3 digit years are NOT
classified as data, contrary to the original claim). -/
theorem c8_date_like_is_data (d m y : List Char)
    (hd : ∀ c ∈ d, pyIsDigitChar c = true)
    (hm : ∀ c ∈ m, pyIsDigitChar c = true)
    (hy : ∀ c ∈ y, pyIsDigitChar c = true)
    (hd1 : 1 ≤ d.length) (hd2 : d.length ≤ 2)
    (hm1 : 1 ≤ m.length) (hm2 : m.length ≤ 2)
    (hy1 : 2 ≤ y.length) (_hy2 : y.length ≤ 4) :
    is_likely_data ⟨d ++ '/' :: (m ++ '/' :: y)⟩ = true ∧
      is_likely_data ⟨d ++ '.' :: (m ++ '.' :: y)⟩ = true ∧
      (y.length = 4 → m.length = 2 → d.length = 2 →
        is_likely_data ⟨y ++ '-' :: (m ++ '-' :: d)⟩ = true) := by
  refine ⟨?_, ?_, ?_⟩
  · have hslash : matchSlashDate ⟨d ++ '/' :: (m ++ '/' :: y)⟩ = true :=
      matchSepDate_of '/' 1 2 1 2 2 d m y (by decide) hd hm hy hd1 hd2 hm1 hm2 hy1
    rw [is_likely_data_of_sep _ (by simp)
      (sep_string_no_space d m y '/' (by decide) hd hm hy)]
    rw [hslash]
    simp
  · have hdot : matchDotDate ⟨d ++ '.' :: (m ++ '.' :: y)⟩ = true :=
      matchSepDate_of '.' 1 2 1 2 2 d m y (by decide) hd hm hy hd1 hd2 hm1 hm2 hy1
    have hs : matchSlashDate ⟨d ++ '.' :: (m ++ '.' :: y)⟩ = false :=
      matchSepDate_wrong_sep '/' '.' 1 2 1 2 2 d (m ++ '.' :: y) hd (by decide)
        (by decide)
    have hda : matchDashDate ⟨d ++ '.' :: (m ++ '.' :: y)⟩ = false :=
      matchSepDate_wrong_sep '-' '.' 4 4 2 2 2 d (m ++ '.' :: y) hd (by decide)
        (by decide)
    rw [is_likely_data_of_sep _ (by simp)
      (sep_string_no_space d m y '.' (by decide) hd hm hy)]
    rw [hs, hda, hdot]
    simp
  · intro hy4 hm2' hd2'
    have hdash : matchDashDate ⟨y ++ '-' :: (m ++ '-' :: d)⟩ = true :=
      matchSepDate_of '-' 4 4 2 2 2 y m d (by decide) hy hm hd (by omega) (by omega)
        (by omega) (by omega) (by omega)
    have hs : matchSlashDate ⟨y ++ '-' :: (m ++ '-' :: d)⟩ = false :=
      matchSepDate_wrong_sep '/' '-' 1 2 1 2 2 y (m ++ '-' :: d) hy (by decide)
        (by decide)
    rw [is_likely_data_of_sep _ (by simp)
      (sep_string_no_space y m d '-' (by decide) hy hm hd)]
    rw [hs, hdash]
    simp

/-- Claim C8, witness: the theorem instantiated at `d = "31"`, `m = "12"`,
`y = "1999"`, so the three concrete strings `31/12/1999`, `31.12.1999` and
`1999-12-31` are all classified as data. -/
theorem c8_witness :
    is_likely_data "31/12/1999" = true ∧ is_likely_data "31.12.1999" = true ∧
      is_likely_data "1999-12-31" = true := by
  have h := c8_date_like_is_data ['3', '1'] ['1', '2'] ['1', '9', '9', '9']
    (by decide) (by decide) (by decide) (by decide) (by decide) (by decide)
    (by decide) (by decide) (by decide)
  exact ⟨h.1, h.2.1, h.2.2 rfl rfl rfl⟩

theorem mem_colNames_filter (cols : List (String × List (Option String)))
    (toRemove : List String) (hSF : "Source File" ∉ toRemove)
    (h : "Source File" ∈ cols.map Prod.fst) :
    "Source File" ∈ (cols.filter (fun c => decide (c.1 ∉ toRemove))).map Prod.fst := by
  rcases List.mem_map.mp h with ⟨c, hc, hceq⟩
  exact List.mem_map.mpr ⟨c, List.mem_filter.mpr ⟨hc, by simp [hceq, hSF]⟩, hceq⟩

theorem sf_not_in_dataPromoted_remove (df : Df) :
    "Source File" ∉ df.colNames.filter (fun col =>
      col ≠ "Source File" && pyStrip col ≠ "" &&
        isDataPromotedName (pyStrip col)) := by
  intro h
  have := (List.mem_filter.mp h).2
  simp at this

theorem sf_not_in_filtered_map (cols : List (String × List (Option String)))
    (p : String × List (Option String) → Bool)
    (hp : ∀ c, c.1 = "Source File" → p c = false) :
    "Source File" ∉ (cols.filter p).map Prod.fst := by
  intro h
  rcases List.mem_map.mp h with ⟨c, hc, hceq⟩
  have hpc := (List.mem_filter.mp hc).2
  rw [hp c hceq] at hpc
  exact Bool.false_ne_true hpc

theorem colNames_mergeInto (df : Df) (src tgt : String) :
    (mergeInto df src tgt).colNames = df.colNames := by
  show (df.cols.map _).map Prod.fst = df.cols.map Prod.fst
  rw [List.map_map]
  apply List.map_congr_left
  intro c _
  simp only [Function.comp]
  split_ifs <;> rfl

theorem mem_colNames_renameCol (df : Df) (src tgt : String)
    (hsrc : src ≠ "Source File") (h : "Source File" ∈ df.colNames) :
    "Source File" ∈ (renameCol df src tgt).colNames := by
  rcases List.mem_map.mp h with ⟨c, hc, hceq⟩
  refine List.mem_map.mpr ⟨c, ?_, hceq⟩
  show c ∈ df.cols.map fun c => if c.1 = src then (tgt, c.2) else c
  have : (fun c : String × List (Option String) =>
      if c.1 = src then (tgt, c.2) else c) c = c := by
    show (if c.1 = src then (tgt, c.2) else c) = c
    rw [if_neg (by rw [hceq]; exact fun hc' => hsrc hc'.symm)]
  exact this ▸ List.mem_map_of_mem _ hc

theorem problematicCols_fst_ne (df : Df) :
    ∀ p ∈ problematicCols df, p.1 ≠ "Source File" := by
  intro p hp
  rcases List.mem_filterMap.mp hp with ⟨c, _, hfc⟩
  simp only at hfc
  split_ifs at hfc with h1 h2 h3 h4
  · have hpc : p.1 = c.1 := by
      have h' := Option.some_inj.mp hfc
      rw [← h']
    rw [hpc]
    intro hcEq
    rw [hcEq] at h1
    exact h1 (by decide)
  · have hpc : p.1 = c.1 := by
      have h' := Option.some_inj.mp hfc
      rw [← h']
    rw [hpc]
    intro hcEq
    rw [hcEq] at h1
    exact h1 (by decide)

theorem fixFold_preserves (ps : List (String × String)) :
    (∀ p ∈ ps, p.1 ≠ "Source File") →
      ∀ d : Df, "Source File" ∈ d.colNames →
        "Source File" ∈ (ps.foldl (fun d p =>
          if decide (p.2 ∈ d.colNames) then mergeInto d p.1 p.2
          else renameCol d p.1 p.2) d).colNames := by
  induction ps with
  | nil => intro _ d hd; exact hd
  | cons p t ih =>
    intro hps d hd
    rw [List.foldl_cons]
    refine ih (fun q hq => hps q (List.mem_cons_of_mem p hq)) _ ?_
    by_cases hm : p.2 ∈ d.colNames
    · rw [if_pos (by simpa using hm), colNames_mergeInto]
      exact hd
    · rw [if_neg (by simpa using hm)]
      exact mem_colNames_renameCol d p.1 p.2 (hps p (List.mem_cons_self p t)) hd

/-- Claim C10, confirmed.  Every column-removal stage of the Column
Normalizer — data-promoted-column filtering, empty-column filtering,
low-quality-column filtering, and misplaced-ID fixing — preserves the
`Source File` column: whenever the input DataFrame has a column of that
name, so does the stage's output. -/
theorem c10_source_file_preserved (df : Df)
    (h : "Source File" ∈ df.colNames) :
    "Source File" ∈ (filter_data_promoted_columns df).colNames ∧
      "Source File" ∈ (filter_empty_columns df).colNames ∧
      "Source File" ∈ (filter_low_quality_columns df).colNames ∧
      "Source File" ∈ (fix_misplaced_id_data df).colNames := by
  refine ⟨?_, ?_, ?_, ?_⟩
  · exact mem_colNames_filter df.cols _ (sf_not_in_dataPromoted_remove df) h
  · refine mem_colNames_filter df.cols _ ?_ h
    exact sf_not_in_filtered_map df.cols _ (fun c hc => by simp [hc])
  · refine mem_colNames_filter df.cols _ ?_ h
    exact sf_not_in_filtered_map df.cols _ (fun c hc => by simp [hc])
  · exact fixFold_preserves (problematicCols df) (problematicCols_fst_ne df) df h

/-- Claim C10, witness: the theorem instantiated at the one-column frame
holding only `Source File`. -/
theorem c10_witness :
    "Source File" ∈ (filter_data_promoted_columns
        ⟨1, [("Source File", [some "a.pdf"])]⟩).colNames ∧
      "Source File" ∈ (fix_misplaced_id_data
        ⟨1, [("Source File", [some "a.pdf"])]⟩).colNames := by
  have h := c10_source_file_preserved ⟨1, [("Source File", [some "a.pdf"])]⟩
    (by decide)
  exact ⟨h.1, h.2.2.2⟩

theorem getD_map_getD (o : List Nat) (h : List String) (k : Nat)
    (hk : k < o.length) :
    ((o.map (fun i => h.getD i "")).getD k "") = h.getD (o.getD k 0) "" := by
  have h1 : o.getD k 0 = o[k] := by
    rw [List.getD_eq_getElem?_getD, List.getElem?_eq_getElem hk]
    rfl
  rw [h1, List.getD_eq_getElem?_getD, List.getElem?_map, List.getElem?_eq_getElem hk]
  rfl

theorem map_getD_range (l : List String) :
    (List.range l.length).map (fun i => l.getD i "") = l := by
  induction l with
  | nil => rfl
  | cons a t ih =>
    rw [List.length_cons, List.range_succ_eq_map, List.map_cons, List.map_map]
    show a :: (List.range t.length).map (fun i => t.getD i "") = a :: t
    rw [ih]

theorem rangeSplit (m : Nat) :
    ∀ n', m ≤ n' →
      List.range m ++ (List.range n').filter (fun i => decide (m ≤ i)) =
        List.range n' := by
  intro n'
  induction n' with
  | zero =>
    intro hm
    have : m = 0 := Nat.le_zero.mp hm
    subst this
    rfl
  | succ k ih =>
    intro hm
    by_cases hmk : m ≤ k
    · rw [List.range_succ, List.filter_append, ← List.append_assoc, ih hmk]
      have : List.filter (fun i => decide (m ≤ i)) [k] = [k] := by
        simp [hmk]
      rw [this]
    · have hmk1 : m = k + 1 := by omega
      subst hmk1
      have : List.filter (fun i => decide (k + 1 ≤ i)) (List.range (k + 1)) = [] := by
        rw [List.filter_eq_nil_iff]
        intro a ha
        have := List.mem_range.mp ha
        simp
        omega
      rw [this, List.append_nil]

theorem lastIdxFrom_unique (r : Role) (l : List String) (m : Nat)
    (hm : m < l.length) (hrole : roleOf (l.getD m "") = some r)
    (huniq : ∀ m', m' < l.length → roleOf (l.getD m' "") = some r → m' = m) :
    lastIdxFrom r 0 l = some m := by
  cases hl : lastIdxFrom r 0 l with
  | none => exact absurd hrole (lastIdxFrom_none r l 0 hl m hm)
  | some j =>
    obtain ⟨mj, hj1, hj2, hj3⟩ := lastIdxFrom_some r l 0 j hl
    rw [huniq mj hj2 hj3] at hj1
    rw [hj1]
    simp

theorem lastIdxFrom_ne_none (r : Role) (l : List String) (m : Nat)
    (hm : m < l.length) (hr : roleOf (l.getD m "") = some r) :
    lastIdxFrom r 0 l ≠ none :=
  fun hn => absurd hr (lastIdxFrom_none r l 0 hn m hm)

theorem roleCols_some_spec (h : List String) (r : Role) (a : Nat)
    (ha : getRole (roleCols h) r = some a) :
    a < h.length ∧ roleOf (h.getD a "") = some r := by
  rw [roleCols_getRole] at ha
  obtain ⟨m, hm1, hm2, hm3⟩ := lastIdxFrom_some r h 0 a ha
  have : a = m := by omega
  subst this
  exact ⟨hm2, hm3⟩

theorem baseOrder_nodup (h : List String) : (baseOrder h).Nodup := by
  have hid := fun a => roleCols_some_spec h .roleId a
  have hfn := fun a => roleCols_some_spec h .roleFname a
  have hln := fun a => roleCols_some_spec h .roleLname a
  unfold baseOrder
  cases h1 : (roleCols h).id_col with
  | none =>
    cases h2 : (roleCols h).fname_col with
    | none =>
      cases h3 : (roleCols h).lname_col <;> simp [h1, h2, h3]
    | some b =>
      cases h3 : (roleCols h).lname_col with
      | none => simp [h1, h2, h3]
      | some c =>
        have hbc : b ≠ c := by
          intro hbc
          have e1 := (hfn b h2).2
          have e2 := (hln c h3).2
          rw [hbc, e2] at e1
          exact Role.noConfusion (Option.some_inj.mp e1)
        simp [h1, h2, h3, hbc]
  | some a =>
    cases h2 : (roleCols h).fname_col with
    | none =>
      cases h3 : (roleCols h).lname_col with
      | none => simp [h1, h2, h3]
      | some c =>
        have hac : a ≠ c := by
          intro hac
          have e1 := (hid a h1).2
          have e2 := (hln c h3).2
          rw [hac, e2] at e1
          exact Role.noConfusion (Option.some_inj.mp e1)
        simp [h1, h2, h3, hac]
    | some b =>
      have hab : a ≠ b := by
        intro hab
        have e1 := (hid a h1).2
        have e2 := (hfn b h2).2
        rw [hab, e2] at e1
        exact Role.noConfusion (Option.some_inj.mp e1)
      cases h3 : (roleCols h).lname_col with
      | none => simp [h1, h2, h3, hab]
      | some c =>
        have hac : a ≠ c := by
          intro hac
          have e1 := (hid a h1).2
          have e2 := (hln c h3).2
          rw [hac, e2] at e1
          exact Role.noConfusion (Option.some_inj.mp e1)
        have hbc : b ≠ c := by
          intro hbc
          have e1 := (hfn b h2).2
          have e2 := (hln c h3).2
          rw [hbc, e2] at e1
          exact Role.noConfusion (Option.some_inj.mp e1)
        simp [h1, h2, h3, hab, hac, hbc]

theorem newOrder_nodup (h : List String) : (newOrder h).Nodup := by
  unfold newOrder
  rw [List.nodup_append]
  refine ⟨baseOrder_nodup h, List.Nodup.filter _ (List.nodup_range _), ?_⟩
  intro a ha hfa
  have := (List.mem_filter.mp hfa).2
  simp at this
  exact this ha

theorem newOrder_getD_inj (h : List String) (k k' : Nat)
    (hk : k < (newOrder h).length) (hk' : k' < (newOrder h).length)
    (he : (newOrder h).getD k 0 = (newOrder h).getD k' 0) : k = k' := by
  have e1 : (newOrder h).getD k 0 = (newOrder h)[k] := by
    rw [List.getD_eq_getElem?_getD, List.getElem?_eq_getElem hk]
    rfl
  have e2 : (newOrder h).getD k' 0 = (newOrder h)[k'] := by
    rw [List.getD_eq_getElem?_getD, List.getElem?_eq_getElem hk']
    rfl
  rw [e1, e2] at he
  exact ((newOrder_nodup h).getElem_inj_iff).mp he

theorem newOrder_getD_lt (h : List String) (k : Nat)
    (hk : k < (newOrder h).length) : (newOrder h).getD k 0 < h.length := by
  have e1 : (newOrder h).getD k 0 = (newOrder h)[k] := by
    rw [List.getD_eq_getElem?_getD, List.getElem?_eq_getElem hk]
    rfl
  rw [e1]
  exact mem_newOrder_lt h _ (List.getElem_mem hk)

theorem roleCols_reordered_some (h : List String)
    (U : ∀ i j, i < h.length → j < h.length →
      roleOf (h.getD i "") = roleOf (h.getD j "") →
        roleOf (h.getD i "") ≠ none → i = j)
    (r : Role) (a k : Nat)
    (ha : getRole (roleCols h) r = some a)
    (hk' : k < (newOrder h).length)
    (hk : (newOrder h).getD k 0 = a) :
    getRole (roleCols ((newOrder h).map (fun i => h.getD i ""))) r = some k := by
  have halt := roleCols_some_spec h r a ha
  rw [roleCols_getRole]
  apply lastIdxFrom_unique
  · rw [List.length_map]
    exact hk'
  · rw [getD_map_getD _ _ _ hk', hk]
    exact halt.2
  · intro m' hm' hr'
    rw [List.length_map] at hm'
    rw [getD_map_getD _ _ _ hm'] at hr'
    have hlt : (newOrder h).getD m' 0 < h.length := newOrder_getD_lt h m' hm'
    have heq : (newOrder h).getD m' 0 = a := by
      apply U _ _ hlt halt.1
      · rw [hr', halt.2]
      · rw [hr']
        exact Option.noConfusion
    exact newOrder_getD_inj h m' k hm' hk' (heq.trans hk.symm)

theorem roleCols_reordered_none (h : List String) (r : Role)
    (ha : getRole (roleCols h) r = none) :
    getRole (roleCols ((newOrder h).map (fun i => h.getD i ""))) r = none := by
  rw [roleCols_getRole]
  cases hl : lastIdxFrom r 0 ((newOrder h).map (fun i => h.getD i "")) with
  | none => rfl
  | some j =>
    exfalso
    obtain ⟨m, _, hm2, hm3⟩ := lastIdxFrom_some r _ 0 j hl
    rw [List.length_map] at hm2
    rw [getD_map_getD _ _ _ hm2] at hm3
    have hlt : (newOrder h).getD m 0 < h.length := newOrder_getD_lt h m hm2
    have := lastIdxFrom_ne_none r h ((newOrder h).getD m 0) hlt hm3
    rw [← roleCols_getRole] at this
    exact this ha

theorem baseOrder_reordered (h : List String)
    (U : ∀ i j, i < h.length → j < h.length →
      roleOf (h.getD i "") = roleOf (h.getD j "") →
        roleOf (h.getD i "") ≠ none → i = j) :
    baseOrder ((newOrder h).map (fun i => h.getD i "")) =
      List.range (baseOrder h).length := by
  rcases h1 : (roleCols h).id_col with _ | a <;>
    rcases h2 : (roleCols h).fname_col with _ | b <;>
      rcases h3 : (roleCols h).lname_col with _ | c
  · have hbase : baseOrder h = [] := by
      show (roleCols h).id_col.toList ++ (roleCols h).fname_col.toList ++
        (roleCols h).lname_col.toList = []
      rw [h1, h2, h3]
      rfl
    have e1 := roleCols_reordered_none h .roleId h1
    have e2 := roleCols_reordered_none h .roleFname h2
    have e3 := roleCols_reordered_none h .roleLname h3
    show (roleCols ((newOrder h).map (fun i => h.getD i ""))).id_col.toList ++
      (roleCols ((newOrder h).map (fun i => h.getD i ""))).fname_col.toList ++
      (roleCols ((newOrder h).map (fun i => h.getD i ""))).lname_col.toList =
      List.range (baseOrder h).length
    rw [show (roleCols ((newOrder h).map (fun i => h.getD i ""))).id_col = none from e1,
      show (roleCols ((newOrder h).map (fun i => h.getD i ""))).fname_col = none from e2,
      show (roleCols ((newOrder h).map (fun i => h.getD i ""))).lname_col = none from e3,
      hbase]
    show (none : Option Nat).toList ++ (none : Option Nat).toList ++
      (none : Option Nat).toList = List.range 0
    decide
  · have hbase : baseOrder h = [c] := by
      show (roleCols h).id_col.toList ++ (roleCols h).fname_col.toList ++
        (roleCols h).lname_col.toList = [c]
      rw [h1, h2, h3]
      rfl
    have ho : newOrder h = c ::
        (List.range h.length).filter (fun i => decide (i ∉ baseOrder h)) := by
      show baseOrder h ++ (List.range h.length).filter
        (fun i => decide (i ∉ baseOrder h)) = _
      rw [hbase]
      rfl
    have e1 := roleCols_reordered_none h .roleId h1
    have e2 := roleCols_reordered_none h .roleFname h2
    have e3 := roleCols_reordered_some h U .roleLname c 0 h3
      (by rw [ho]; simp) (by rw [ho]; simp)
    show (roleCols ((newOrder h).map (fun i => h.getD i ""))).id_col.toList ++
      (roleCols ((newOrder h).map (fun i => h.getD i ""))).fname_col.toList ++
      (roleCols ((newOrder h).map (fun i => h.getD i ""))).lname_col.toList =
      List.range (baseOrder h).length
    rw [show (roleCols ((newOrder h).map (fun i => h.getD i ""))).id_col = none from e1,
      show (roleCols ((newOrder h).map (fun i => h.getD i ""))).fname_col = none from e2,
      show (roleCols ((newOrder h).map (fun i => h.getD i ""))).lname_col = some 0 from e3,
      hbase]
    show (none : Option Nat).toList ++ (none : Option Nat).toList ++
      (some 0 : Option Nat).toList = List.range 1
    decide
  · have hbase : baseOrder h = [b] := by
      show (roleCols h).id_col.toList ++ (roleCols h).fname_col.toList ++
        (roleCols h).lname_col.toList = [b]
      rw [h1, h2, h3]
      rfl
    have ho : newOrder h = b ::
        (List.range h.length).filter (fun i => decide (i ∉ baseOrder h)) := by
      show baseOrder h ++ (List.range h.length).filter
        (fun i => decide (i ∉ baseOrder h)) = _
      rw [hbase]
      rfl
    have e1 := roleCols_reordered_none h .roleId h1
    have e2 := roleCols_reordered_some h U .roleFname b 0 h2
      (by rw [ho]; simp) (by rw [ho]; simp)
    have e3 := roleCols_reordered_none h .roleLname h3
    show (roleCols ((newOrder h).map (fun i => h.getD i ""))).id_col.toList ++
      (roleCols ((newOrder h).map (fun i => h.getD i ""))).fname_col.toList ++
      (roleCols ((newOrder h).map (fun i => h.getD i ""))).lname_col.toList =
      List.range (baseOrder h).length
    rw [show (roleCols ((newOrder h).map (fun i => h.getD i ""))).id_col = none from e1,
      show (roleCols ((newOrder h).map (fun i => h.getD i ""))).fname_col = some 0 from e2,
      show (roleCols ((newOrder h).map (fun i => h.getD i ""))).lname_col = none from e3,
      hbase]
    show (none : Option Nat).toList ++ (some 0 : Option Nat).toList ++
      (none : Option Nat).toList = List.range 1
    decide
  · have hbase : baseOrder h = [b, c] := by
      show (roleCols h).id_col.toList ++ (roleCols h).fname_col.toList ++
        (roleCols h).lname_col.toList = [b, c]
      rw [h1, h2, h3]
      rfl
    have ho : newOrder h = b :: c ::
        (List.range h.length).filter (fun i => decide (i ∉ baseOrder h)) := by
      show baseOrder h ++ (List.range h.length).filter
        (fun i => decide (i ∉ baseOrder h)) = _
      rw [hbase]
      rfl
    have e1 := roleCols_reordered_none h .roleId h1
    have e2 := roleCols_reordered_some h U .roleFname b 0 h2
      (by rw [ho]; simp) (by rw [ho]; simp)
    have e3 := roleCols_reordered_some h U .roleLname c 1 h3
      (by rw [ho]; simp) (by rw [ho]; simp)
    show (roleCols ((newOrder h).map (fun i => h.getD i ""))).id_col.toList ++
      (roleCols ((newOrder h).map (fun i => h.getD i ""))).fname_col.toList ++
      (roleCols ((newOrder h).map (fun i => h.getD i ""))).lname_col.toList =
      List.range (baseOrder h).length
    rw [show (roleCols ((newOrder h).map (fun i => h.getD i ""))).id_col = none from e1,
      show (roleCols ((newOrder h).map (fun i => h.getD i ""))).fname_col = some 0 from e2,
      show (roleCols ((newOrder h).map (fun i => h.getD i ""))).lname_col = some 1 from e3,
      hbase]
    show (none : Option Nat).toList ++ (some 0 : Option Nat).toList ++
      (some 1 : Option Nat).toList = List.range 2
    decide
  · have hbase : baseOrder h = [a] := by
      show (roleCols h).id_col.toList ++ (roleCols h).fname_col.toList ++
        (roleCols h).lname_col.toList = [a]
      rw [h1, h2, h3]
      rfl
    have ho : newOrder h = a ::
        (List.range h.length).filter (fun i => decide (i ∉ baseOrder h)) := by
      show baseOrder h ++ (List.range h.length).filter
        (fun i => decide (i ∉ baseOrder h)) = _
      rw [hbase]
      rfl
    have e1 := roleCols_reordered_some h U .roleId a 0 h1
      (by rw [ho]; simp) (by rw [ho]; simp)
    have e2 := roleCols_reordered_none h .roleFname h2
    have e3 := roleCols_reordered_none h .roleLname h3
    show (roleCols ((newOrder h).map (fun i => h.getD i ""))).id_col.toList ++
      (roleCols ((newOrder h).map (fun i => h.getD i ""))).fname_col.toList ++
      (roleCols ((newOrder h).map (fun i => h.getD i ""))).lname_col.toList =
      List.range (baseOrder h).length
    rw [show (roleCols ((newOrder h).map (fun i => h.getD i ""))).id_col = some 0 from e1,
      show (roleCols ((newOrder h).map (fun i => h.getD i ""))).fname_col = none from e2,
      show (roleCols ((newOrder h).map (fun i => h.getD i ""))).lname_col = none from e3,
      hbase]
    show (some 0 : Option Nat).toList ++ (none : Option Nat).toList ++
      (none : Option Nat).toList = List.range 1
    decide
  · have hbase : baseOrder h = [a, c] := by
      show (roleCols h).id_col.toList ++ (roleCols h).fname_col.toList ++
        (roleCols h).lname_col.toList = [a, c]
      rw [h1, h2, h3]
      rfl
    have ho : newOrder h = a :: c ::
        (List.range h.length).filter (fun i => decide (i ∉ baseOrder h)) := by
      show baseOrder h ++ (List.range h.length).filter
        (fun i => decide (i ∉ baseOrder h)) = _
      rw [hbase]
      rfl
    have e1 := roleCols_reordered_some h U .roleId a 0 h1
      (by rw [ho]; simp) (by rw [ho]; simp)
    have e2 := roleCols_reordered_none h .roleFname h2
    have e3 := roleCols_reordered_some h U .roleLname c 1 h3
      (by rw [ho]; simp) (by rw [ho]; simp)
    show (roleCols ((newOrder h).map (fun i => h.getD i ""))).id_col.toList ++
      (roleCols ((newOrder h).map (fun i => h.getD i ""))).fname_col.toList ++
      (roleCols ((newOrder h).map (fun i => h.getD i ""))).lname_col.toList =
      List.range (baseOrder h).length
    rw [show (roleCols ((newOrder h).map (fun i => h.getD i ""))).id_col = some 0 from e1,
      show (roleCols ((newOrder h).map (fun i => h.getD i ""))).fname_col = none from e2,
      show (roleCols ((newOrder h).map (fun i => h.getD i ""))).lname_col = some 1 from e3,
      hbase]
    show (some 0 : Option Nat).toList ++ (none : Option Nat).toList ++
      (some 1 : Option Nat).toList = List.range 2
    decide
  · have hbase : baseOrder h = [a, b] := by
      show (roleCols h).id_col.toList ++ (roleCols h).fname_col.toList ++
        (roleCols h).lname_col.toList = [a, b]
      rw [h1, h2, h3]
      rfl
    have ho : newOrder h = a :: b ::
        (List.range h.length).filter (fun i => decide (i ∉ baseOrder h)) := by
      show baseOrder h ++ (List.range h.length).filter
        (fun i => decide (i ∉ baseOrder h)) = _
      rw [hbase]
      rfl
    have e1 := roleCols_reordered_some h U .roleId a 0 h1
      (by rw [ho]; simp) (by rw [ho]; simp)
    have e2 := roleCols_reordered_some h U .roleFname b 1 h2
      (by rw [ho]; simp) (by rw [ho]; simp)
    have e3 := roleCols_reordered_none h .roleLname h3
    show (roleCols ((newOrder h).map (fun i => h.getD i ""))).id_col.toList ++
      (roleCols ((newOrder h).map (fun i => h.getD i ""))).fname_col.toList ++
      (roleCols ((newOrder h).map (fun i => h.getD i ""))).lname_col.toList =
      List.range (baseOrder h).length
    rw [show (roleCols ((newOrder h).map (fun i => h.getD i ""))).id_col = some 0 from e1,
      show (roleCols ((newOrder h).map (fun i => h.getD i ""))).fname_col = some 1 from e2,
      show (roleCols ((newOrder h).map (fun i => h.getD i ""))).lname_col = none from e3,
      hbase]
    show (some 0 : Option Nat).toList ++ (some 1 : Option Nat).toList ++
      (none : Option Nat).toList = List.range 2
    decide
  · have hbase : baseOrder h = [a, b, c] := by
      show (roleCols h).id_col.toList ++ (roleCols h).fname_col.toList ++
        (roleCols h).lname_col.toList = [a, b, c]
      rw [h1, h2, h3]
      rfl
    have ho : newOrder h = a :: b :: c ::
        (List.range h.length).filter (fun i => decide (i ∉ baseOrder h)) := by
      show baseOrder h ++ (List.range h.length).filter
        (fun i => decide (i ∉ baseOrder h)) = _
      rw [hbase]
      rfl
    have e1 := roleCols_reordered_some h U .roleId a 0 h1
      (by rw [ho]; simp) (by rw [ho]; simp)
    have e2 := roleCols_reordered_some h U .roleFname b 1 h2
      (by rw [ho]; simp) (by rw [ho]; simp)
    have e3 := roleCols_reordered_some h U .roleLname c 2 h3
      (by rw [ho]; simp) (by rw [ho]; simp)
    show (roleCols ((newOrder h).map (fun i => h.getD i ""))).id_col.toList ++
      (roleCols ((newOrder h).map (fun i => h.getD i ""))).fname_col.toList ++
      (roleCols ((newOrder h).map (fun i => h.getD i ""))).lname_col.toList =
      List.range (baseOrder h).length
    rw [show (roleCols ((newOrder h).map (fun i => h.getD i ""))).id_col = some 0 from e1,
      show (roleCols ((newOrder h).map (fun i => h.getD i ""))).fname_col = some 1 from e2,
      show (roleCols ((newOrder h).map (fun i => h.getD i ""))).lname_col = some 2 from e3,
      hbase]
    show (some 0 : Option Nat).toList ++ (some 1 : Option Nat).toList ++
      (some 2 : Option Nat).toList = List.range 3
    decide

theorem newOrder_reordered (h : List String)
    (U : ∀ i j, i < h.length → j < h.length →
      roleOf (h.getD i "") = roleOf (h.getD j "") →
        roleOf (h.getD i "") ≠ none → i = j) :
    newOrder ((newOrder h).map (fun i => h.getD i "")) =
      List.range ((newOrder h).length) := by
  have hm : (baseOrder h).length ≤ (newOrder h).length := by
    show (baseOrder h).length ≤ (baseOrder h ++ _).length
    rw [List.length_append]
    omega
  show baseOrder ((newOrder h).map (fun i => h.getD i "")) ++
    (List.range ((newOrder h).map (fun i => h.getD i "")).length).filter
      (fun i => decide (i ∉ baseOrder ((newOrder h).map (fun i => h.getD i "")))) =
    List.range ((newOrder h).length)
  rw [baseOrder_reordered h U, List.length_map]
  have hconv : (List.range (newOrder h).length).filter
      (fun i => decide (i ∉ List.range (baseOrder h).length)) =
      (List.range (newOrder h).length).filter
        (fun i => decide ((baseOrder h).length ≤ i)) := by
    apply List.filter_congr
    intro a _
    rw [decide_eq_decide]
    rw [List.mem_range]
    omega
  rw [hconv]
  exact rangeSplit (baseOrder h).length (newOrder h).length hm

/-- Claim C4, amended theorem.  Column reordering is idempotent on every
header list in which each role is matched by at most one header: applying
the reorder step to its own output changes nothing.  (Unrestricted
idempotence fails because the role loop keeps the last match, so duplicate
role matches can swap back on a second pass.) -/
theorem c4_reorder_idempotent_unique_roles (headers : List String)
    (rows : List (List String))
    (U : ∀ i j, i < headers.length → j < headers.length →
      roleOf (headers.getD i "") = roleOf (headers.getD j "") →
        roleOf (headers.getD i "") ≠ none → i = j) :
    reorderTable (reorderTable headers rows).1 (reorderTable headers rows).2 =
      reorderTable headers rows := by
  show reorderTable ((newOrder headers).map (fun i => headers.getD i ""))
    (rows.map (projectRow (newOrder headers))) = _
  show ((newOrder ((newOrder headers).map (fun i => headers.getD i ""))).map
      (fun i => ((newOrder headers).map (fun j => headers.getD j "")).getD i ""),
    (rows.map (projectRow (newOrder headers))).map
      (projectRow (newOrder ((newOrder headers).map (fun i => headers.getD i ""))))) =
    ((newOrder headers).map (fun i => headers.getD i ""),
      rows.map (projectRow (newOrder headers)))
  rw [newOrder_reordered headers U]
  have hfst : (List.range ((newOrder headers).length)).map
      (fun i => ((newOrder headers).map (fun j => headers.getD j "")).getD i "") =
      (newOrder headers).map (fun j => headers.getD j "") := by
    have hl : (newOrder headers).length =
        ((newOrder headers).map (fun j => headers.getD j "")).length :=
      (List.length_map _ _).symm
    rw [hl]
    exact map_getD_range _
  have hsnd : (rows.map (projectRow (newOrder headers))).map
      (projectRow (List.range ((newOrder headers).length))) =
      rows.map (projectRow (newOrder headers)) := by
    rw [List.map_map]
    apply List.map_congr_left
    intro r _
    show projectRow (List.range ((newOrder headers).length))
      (projectRow (newOrder headers) r) = projectRow (newOrder headers) r
    have hl : (newOrder headers).length =
        (projectRow (newOrder headers) r).length :=
      (List.length_map _ _).symm
    show (List.range ((newOrder headers).length)).map
      (fun i => (projectRow (newOrder headers) r).getD i "") = _
    rw [hl]
    exact map_getD_range _
  rw [hfst, hsnd]

/-- Claim C4, witness: the theorem instantiated at headers
`["Last Name","X","First Name","ID"]` (at most one match per role) with one
data row, so the second reorder application equals the first. -/
theorem c4_witness :
    reorderTable
        (reorderTable ["Last Name", "X", "First Name", "ID"] [["d", "x", "f", "i"]]).1
        (reorderTable ["Last Name", "X", "First Name", "ID"] [["d", "x", "f", "i"]]).2 =
      reorderTable ["Last Name", "X", "First Name", "ID"] [["d", "x", "f", "i"]] := by
  apply c4_reorder_idempotent_unique_roles
  have h4 : ∀ i, i < 4 → ∀ j, j < 4 →
      (roleOf (["Last Name", "X", "First Name", "ID"].getD i "") =
          roleOf (["Last Name", "X", "First Name", "ID"].getD j "") →
        roleOf (["Last Name", "X", "First Name", "ID"].getD i "") ≠ none →
          i = j) := by decide
  intro i j hi hj
  exact h4 i hi j hj
